import Mathlib

/-!
# Service registration of proxyd (okx/infra): embedding and properties

Shallow embedding of `proxyd/nacos.go` (`StartNacosClient`, `ResolveIPAndPort`,
`getServerConfigs`) and of the copies of the registration routine in
`cmd/proxyd/main.go` and `cmd/proxyd/nacos_xlayer.go`.

Conventions of the embedding.

* A Go `string` is a list of characters (`Str`).  The only separators the code
  splits on are `","` and `":"` and the only characters `strconv.ParseUint`
  accepts in base 10 are `'0'..'9'`; all of them are ASCII, so on UTF-8 text
  splitting and digit scanning agree bytewise and characterwise.
* A Go call that ends in a run-time panic (index out of range, or an explicit
  `panic(...)`) is a value of its own (`Res.panicked`, `Exit.panicked`),
  distinct from a returned `error`.
* `uint64` is `Nat` with explicit reduction modulo `2^64` where the source
  arithmetic can wrap.
* The outside world (network interfaces, the nacos registry, the clock) is a
  parameter `Env`.
-/

namespace Proxyd

/-- Go strings. -/
abbrev Str := List Char

/-- Result of a Go call returning `(value, error)`, or ending in a run-time panic. -/
inductive Res (ε α : Type) where
  | ok (a : α)
  | error (e : ε)
  | panicked
  deriving DecidableEq, Repr

/-! ## Library functions used by the source -/

/-- Go `strings.Split(s, sep)` for a one-character separator: the pieces of `s`
between the occurrences of `sep`; always at least one piece (`[""]` for `""`). -/
def Split : Str → Char → List Str
  | [], _ => [[]]
  | c :: cs, sep =>
    if c = sep then [] :: Split cs sep
    else
      match Split cs sep with
      | [] => [[c]]
      | w :: ws => (c :: w) :: ws

/-- Go `strconv.ErrSyntax` and `strconv.ErrRange`. -/
inductive NumErr where
  | ErrSyntax
  | ErrRange
  deriving DecidableEq, Repr

/-- Go `*strconv.NumError`: the failing input text and the kind of failure. -/
structure NumError where
  Num : Str
  Err : NumErr
  deriving DecidableEq, Repr

/-- Largest `uint64`. -/
def maxUint64 : Nat := 2 ^ 64 - 1

/-- In `strconv.ParseUint`, base 10: the smallest number such that
`cutoff * 10 > maxUint64`. -/
def cutoff : Nat := maxUint64 / 10 + 1

/-- Go `lower(c)` of `strconv`: `c | ('x' - 'X')`. -/
def lower (c : Nat) : Nat := c ||| 0x20

/-- The digit scanning loop of `strconv.ParseUint(s, 10, 64)`;
`n` is the `uint64` accumulator, `s0` the whole input (for the error value). -/
def parseUintLoop (s0 : Str) : Str → Nat → Res NumError Nat
  | [], n => .ok n
  | ch :: cs, n =>
    let c := ch.toNat
    -- switch: '0' <= c <= '9' / 'a' <= lower(c) <= 'z' / default
    if 48 ≤ c ∧ c ≤ 57 then
      let d := c - 48
      if d ≥ 10 then .error ⟨s0, .ErrSyntax⟩
      else if n ≥ cutoff then .error ⟨s0, .ErrRange⟩
      else
        let n10 := (n * 10) % 2 ^ 64
        let n1 := (n10 + d) % 2 ^ 64
        if n1 < n10 ∨ n1 > maxUint64 then .error ⟨s0, .ErrRange⟩
        else parseUintLoop s0 cs n1
    else if 97 ≤ lower c ∧ lower c ≤ 122 then
      let d := lower c - 97 + 10
      if d ≥ 10 then .error ⟨s0, .ErrSyntax⟩
      else if n ≥ cutoff then .error ⟨s0, .ErrRange⟩
      else
        let n10 := (n * 10) % 2 ^ 64
        let n1 := (n10 + d) % 2 ^ 64
        if n1 < n10 ∨ n1 > maxUint64 then .error ⟨s0, .ErrRange⟩
        else parseUintLoop s0 cs n1
    else .error ⟨s0, .ErrSyntax⟩

/-- Go `strconv.ParseUint(s, 10, 64)`. -/
def ParseUint (s : Str) : Res NumError Nat :=
  if s = [] then .error ⟨s, .ErrSyntax⟩ else parseUintLoop s s 0

/-! ## `proxyd/nacos.go` -/

/-- The constant `defaultPort`. -/
def defaultPort : Nat := 26659

/-- The constant `defaultWeight = float64(10)`; the value 10 is exact. -/
def defaultWeight : Nat := 10

/-- The loopback marker `"127.0.0.1"`. -/
def loopback : Str := ['1', '2', '7', '.', '0', '.', '0', '.', '1']

/-- Source `ResolveIPAndPort(addr)`.  `GetLocalIP` is the value the call
`GetLocalIP()` yields (the first non-loopback IPv4 interface address, or `""`).
`laddr[1]` on a one-element slice is an index-out-of-range panic. -/
def ResolveIPAndPort (GetLocalIP : Str) (addr : Str) : Res NumError (Str × Nat) :=
  let laddr := Split addr ':'
  match laddr.get? 0 with
  | none => .panicked
  | some ip =>
    if ip = loopback then .ok (GetLocalIP, defaultPort)
    else
      match laddr.get? 1 with
      | none => .panicked
      | some p =>
        match ParseUint p with
        | .ok port => .ok (ip, port)
        | .error err => .error err
        | .panicked => .panicked

/-- Go `constant.ServerConfig`, the fields the source sets. -/
structure ServerConfig where
  IpAddr : Str
  Port : Nat
  deriving DecidableEq, Repr

/-- The error `fmt.Errorf("Err parsing host: %+w", err)`. -/
structure WrappedError where
  msg : Str
  err : NumError
  deriving DecidableEq, Repr

/-- The loop of `getServerConfigs` over the remaining urls, `configs` being the
descriptors appended so far. -/
def getServerConfigsLoop (GetLocalIP : Str) : List Str → List ServerConfig →
    Res WrappedError (List ServerConfig)
  | [], configs => .ok configs
  | url :: urls, configs =>
    match ResolveIPAndPort GetLocalIP url with
    | .panicked => .panicked
    | .error err => .error ⟨"Err parsing host: ".toList, err⟩
    | .ok (laddr, serverPort) =>
      getServerConfigsLoop GetLocalIP urls (configs ++ [⟨laddr, serverPort⟩])

/-- Source `getServerConfigs(urls)`. -/
def getServerConfigs (GetLocalIP : Str) (urls : Str) : Res WrappedError (List ServerConfig) :=
  getServerConfigsLoop GetLocalIP (Split urls ',') []

/-- Go `vo.RegisterInstanceParam`, the fields the source sets. -/
structure RegisterInstanceParam where
  Ip : Str
  Port : Nat
  ServiceName : Str
  Weight : Nat
  ClusterName : Str
  Enable : Bool
  Healthy : Bool
  Ephemeral : Bool
  Metadata : List (Str × Str)
  deriving DecidableEq, Repr

/-- The outside world of one registration call. -/
structure Env where
  /-- What `GetLocalIP()` yields: the first non-loopback IPv4 interface address, or `""`. -/
  GetLocalIP : Str
  /-- Whether `clients.CreateNamingClient` succeeds for these server descriptors and namespace. -/
  CreateNamingClient : List ServerConfig → Str → Bool
  /-- Whether `client.RegisterInstance(param)` succeeds, given the calls made before it. -/
  RegisterInstance : List RegisterInstanceParam → RegisterInstanceParam → Bool
  /-- The text `strconv.FormatInt(time.Now().Unix(), 10)` at the registration made
  after `k` earlier ones. -/
  unixTimeText : Nat → Str

/-- The `log.Error` after which the routine returns. -/
inductive Failure where
  | serverUrl (err : WrappedError)
  | createClient
  | resolve (err : NumError)
  | register
  deriving DecidableEq, Repr

/-- The run-time panics of the routine. -/
inductive Fatal where
  | indexOutOfRange
  | cardinality
  | hostMismatch (firstIP ip : Str)
  deriving DecidableEq, Repr

/-- How a registration call ends. -/
inductive Exit where
  | success
  | returned (why : Failure)
  | panicked (why : Fatal)
  deriving DecidableEq, Repr

/-- What a registration call does: the `RegisterInstance` calls it makes, in order,
and how it ends. -/
structure Run where
  calls : List RegisterInstanceParam
  exit : Exit
  deriving DecidableEq, Repr

/-- The `vo.RegisterInstanceParam` literal of the source; `k` is the number of
registrations made before this one. -/
def instanceParam (env : Env) (k : Nat) (ip : Str) (port : Nat) (name : Str) :
    RegisterInstanceParam where
  Ip := ip
  Port := port
  ServiceName := name
  Weight := defaultWeight
  ClusterName := "DEFAULT".toList
  Enable := true
  Healthy := true
  Ephemeral := true
  Metadata := [("preserved.register.source".toList, "GO".toList),
    ("app_registry_tag".toList, env.unixTimeText k)]

/-- The loop `for i := 0; i < len(addrs); i++` of `StartNacosClient`, from index `i`
on: the arguments are `addrs[i:]`, `appNames[i:]`, the variable `firstIP` and the
`RegisterInstance` calls made so far. -/
def registerLoop (env : Env) : List Str → List Str → Str → List RegisterInstanceParam → Run
  | [], _, _, calls => ⟨calls, .success⟩
  | addr :: addrs, appNames, firstIP, calls =>
    match ResolveIPAndPort env.GetLocalIP addr with
    | .panicked => ⟨calls, .panicked .indexOutOfRange⟩
    | .error err => ⟨calls, .returned (.resolve err)⟩
    | .ok (ip, port) =>
      -- Verify same IP address is used for multiple ports.
      if firstIP ≠ [] ∧ firstIP ≠ ip then ⟨calls, .panicked (.hostMismatch firstIP ip)⟩
      else
        let firstIP := if firstIP = [] then ip else firstIP
        match appNames with
        | [] => ⟨calls, .panicked .indexOutOfRange⟩
        | appName :: appNames =>
          let param := instanceParam env calls.length ip port appName
          if env.RegisterInstance calls param then
            registerLoop env addrs appNames firstIP (calls ++ [param])
          else ⟨calls ++ [param], .returned .register⟩

/-- Source `StartNacosClient(urls, namespace, name, externalAddr)`. -/
def StartNacosClient (env : Env) (urls namespaceId name externalAddr : Str) : Run :=
  match getServerConfigs env.GetLocalIP urls with
  | .panicked => ⟨[], .panicked .indexOutOfRange⟩
  | .error err => ⟨[], .returned (.serverUrl err)⟩
  | .ok serverConfigs =>
    if env.CreateNamingClient serverConfigs namespaceId = false then
      ⟨[], .returned .createClient⟩
    else
      let appNames := Split name ','
      let addrs := Split externalAddr ','
      if appNames.length ≠ addrs.length then ⟨[], .panicked .cardinality⟩
      else registerLoop env addrs appNames [] []

end Proxyd

/-! ## `cmd/proxyd/main.go` -/

namespace Main
open Proxyd

/-- Source `ResolveIPAndPort(addr)` of `cmd/proxyd/main.go`. -/
def ResolveIPAndPort (GetLocalIP : Str) (addr : Str) : Res NumError (Str × Nat) :=
  let laddr := Split addr ':'
  match laddr.get? 0 with
  | none => .panicked
  | some ip =>
    if ip = loopback then .ok (GetLocalIP, defaultPort)
    else
      match laddr.get? 1 with
      | none => .panicked
      | some p =>
        match ParseUint p with
        | .ok port => .ok (ip, port)
        | .error err => .error err
        | .panicked => .panicked

/-- The loop of `getServerConfigs` of `cmd/proxyd/main.go`. -/
def getServerConfigsLoop (GetLocalIP : Str) : List Str → List ServerConfig →
    Res WrappedError (List ServerConfig)
  | [], configs => .ok configs
  | url :: urls, configs =>
    match ResolveIPAndPort GetLocalIP url with
    | .panicked => .panicked
    | .error err => .error ⟨"Err parsing host: ".toList, err⟩
    | .ok (laddr, serverPort) =>
      getServerConfigsLoop GetLocalIP urls (configs ++ [⟨laddr, serverPort⟩])

/-- Source `getServerConfigs(urls)` of `cmd/proxyd/main.go`. -/
def getServerConfigs (GetLocalIP : Str) (urls : Str) : Res WrappedError (List ServerConfig) :=
  getServerConfigsLoop GetLocalIP (Split urls ',') []

/-- Source `startNacosClient(urls, namespace, name, externalAddr)` of
`cmd/proxyd/main.go`, the routine `main` calls. -/
def startNacosClient (env : Env) (urls namespaceId name externalAddr : Str) : Run :=
  match ResolveIPAndPort env.GetLocalIP externalAddr with
  | .panicked => ⟨[], .panicked .indexOutOfRange⟩
  | .error err => ⟨[], .returned (.resolve err)⟩
  | .ok (ip, port) =>
    match getServerConfigs env.GetLocalIP urls with
    | .panicked => ⟨[], .panicked .indexOutOfRange⟩
    | .error err => ⟨[], .returned (.serverUrl err)⟩
    | .ok serverConfigs =>
      if env.CreateNamingClient serverConfigs namespaceId = false then
        ⟨[], .returned .createClient⟩
      else
        let param := instanceParam env 0 ip port name
        if env.RegisterInstance [] param then ⟨[param], .success⟩
        else ⟨[param], .returned .register⟩

end Main

/-! ## `cmd/proxyd/nacos_xlayer.go` -/

namespace Xlayer
open Proxyd

/-- Source `ResolveIPAndPort(addr)` of `cmd/proxyd/nacos_xlayer.go`. -/
def ResolveIPAndPort (GetLocalIP : Str) (addr : Str) : Res NumError (Str × Nat) :=
  let laddr := Split addr ':'
  match laddr.get? 0 with
  | none => .panicked
  | some ip =>
    if ip = loopback then .ok (GetLocalIP, defaultPort)
    else
      match laddr.get? 1 with
      | none => .panicked
      | some p =>
        match ParseUint p with
        | .ok port => .ok (ip, port)
        | .error err => .error err
        | .panicked => .panicked

/-- The loop of `getServerConfigs` of `cmd/proxyd/nacos_xlayer.go`. -/
def getServerConfigsLoop (GetLocalIP : Str) : List Str → List ServerConfig →
    Res WrappedError (List ServerConfig)
  | [], configs => .ok configs
  | url :: urls, configs =>
    match ResolveIPAndPort GetLocalIP url with
    | .panicked => .panicked
    | .error err => .error ⟨"Err parsing host: ".toList, err⟩
    | .ok (laddr, serverPort) =>
      getServerConfigsLoop GetLocalIP urls (configs ++ [⟨laddr, serverPort⟩])

/-- Source `getServerConfigs(urls)` of `cmd/proxyd/nacos_xlayer.go`. -/
def getServerConfigs (GetLocalIP : Str) (urls : Str) : Res WrappedError (List ServerConfig) :=
  getServerConfigsLoop GetLocalIP (Split urls ',') []

/-- Source `startNacosClient(urls, namespace, name, externalAddr)` of
`cmd/proxyd/nacos_xlayer.go`; it differs from the one of `main.go` by log lines only. -/
def startNacosClient (env : Env) (urls namespaceId name externalAddr : Str) : Run :=
  match ResolveIPAndPort env.GetLocalIP externalAddr with
  | .panicked => ⟨[], .panicked .indexOutOfRange⟩
  | .error err => ⟨[], .returned (.resolve err)⟩
  | .ok (ip, port) =>
    match getServerConfigs env.GetLocalIP urls with
    | .panicked => ⟨[], .panicked .indexOutOfRange⟩
    | .error err => ⟨[], .returned (.serverUrl err)⟩
    | .ok serverConfigs =>
      if env.CreateNamingClient serverConfigs namespaceId = false then
        ⟨[], .returned .createClient⟩
      else
        let param := instanceParam env 0 ip port name
        if env.RegisterInstance [] param then ⟨[param], .success⟩
        else ⟨[param], .returned .register⟩

end Xlayer

namespace Proxyd

/-! ## Reference notions used to state the properties -/

/-- A decimal digit character. -/
def isDigit (c : Char) : Bool := decide (48 ≤ c.toNat ∧ c.toNat ≤ 57)

/-- The number denoted by the decimal digits `s` read after the value `n`. -/
def decValFrom (n : Nat) (s : Str) : Nat :=
  s.foldl (fun a c => 10 * a + (c.toNat - 48)) n

/-- The number denoted by a string of decimal digits. -/
def decVal (s : Str) : Nat := decValFrom 0 s

/-- A valid port text: a non-empty string of decimal digits denoting a value below `2^64`. -/
def validPort (s : Str) : Bool :=
  decide (s ≠ []) && s.all isDigit && decide (decVal s < 2 ^ 64)

/-- An outside world in which the machine has the interface address `localIP`, the
client is always created and the registry accepts every instance. -/
def acceptAll (localIP : Str) : Env where
  GetLocalIP := localIP
  CreateNamingClient := fun _ _ => true
  RegisterInstance := fun _ _ => true
  unixTimeText := fun _ => "1700000000".toList

/-- Go `strings.Join(elems, sep)` for a one-character separator. -/
def Join : List Str → Char → Str
  | [], _ => []
  | [x], _ => x
  | x :: y :: r, sep => x ++ sep :: Join (y :: r) sep

/-- The address text `h:p`. -/
def hostPort (h p : Str) : Str := h ++ ':' :: p

/-- The instances a registration of the names `names` on the host `h` with the port
texts `ports` is expected to hand over: the one of index `i` has `Ip = h`, the value
of `ports[i]` as `Port` and `names[i]` as `ServiceName`; `k` is the index of the first. -/
def expectedFrom (env : Env) (h : Str) (k : Nat) (names ports : List Str) :
    List RegisterInstanceParam :=
  ((names.zip ports).enumFrom k).map
    (fun x => instanceParam env x.1 h (decVal x.2.2) x.2.1)

/-- The expected instances, from index 0. -/
def expectedInstances (env : Env) (h : Str) (names ports : List Str) :
    List RegisterInstanceParam :=
  expectedFrom env h 0 names ports

/-- Whether the registry accepts the instance of index `i` of `E`, called after the
instances of smaller index; an index outside `E` counts as accepted. -/
def accepts (env : Env) (E : List RegisterInstanceParam) (i : Nat) : Bool :=
  match E.get? i with
  | some x => env.RegisterInstance (E.take i) x
  | none => true

/-- Handing the instances `E` to the registry in order, after the calls `hist`, until
one is rejected. -/
def attempt (env : Env) : List RegisterInstanceParam → List RegisterInstanceParam → Run
  | hist, [] => ⟨hist, .success⟩
  | hist, x :: xs =>
    if env.RegisterInstance hist x then attempt env (hist ++ [x]) xs
    else ⟨hist ++ [x], .returned .register⟩

/-! ## Lemmas on the library functions -/

theorem Split_ne_nil (s : Str) (sep : Char) : Split s sep ≠ [] := by
  induction s with
  | nil => simp [Split]
  | cons c cs ih =>
    unfold Split
    split
    · simp
    · split <;> simp

theorem Split_noSep (s : Str) (sep : Char) (h : sep ∉ s) : Split s sep = [s] := by
  induction s with
  | nil => simp [Split]
  | cons c cs ih =>
    have hc : c ≠ sep := fun e => h (by simp [e])
    have hcs : sep ∉ cs := fun e => h (by simp [e])
    simp [Split, hc, ih hcs]

theorem Split_append_sep (h : Str) (sep : Char) (r : Str) (hh : sep ∉ h) :
    Split (h ++ sep :: r) sep = h :: Split r sep := by
  induction h with
  | nil => simp [Split]
  | cons c cs ih =>
    have hc : c ≠ sep := fun e => hh (by simp [e])
    have hcs : sep ∉ cs := fun e => hh (by simp [e])
    simp [Split, hc, ih hcs]

theorem decValFrom_mono (s : Str) (n : Nat) : n ≤ decValFrom n s := by
  induction s generalizing n with
  | nil => simp [decValFrom]
  | cons c cs ih =>
    have := ih (10 * n + (c.toNat - 48))
    simp only [decValFrom, List.foldl_cons] at this ⊢
    omega

theorem parseUintLoop_ne_panicked (s0 cs : Str) (n : Nat) :
    parseUintLoop s0 cs n ≠ .panicked := by
  induction cs generalizing n with
  | nil => simp [parseUintLoop]
  | cons c cs ih =>
    unfold parseUintLoop
    simp only
    repeat' split
    all_goals first | exact ih _ | simp

theorem parseUintLoop_digits (s0 cs : Str) (n : Nat) (hd : ∀ c ∈ cs, isDigit c = true)
    (hn : n < 2 ^ 64) :
    parseUintLoop s0 cs n =
      if decValFrom n cs < 2 ^ 64 then .ok (decValFrom n cs) else .error ⟨s0, .ErrRange⟩ := by
  induction cs generalizing n with
  | nil =>
    simp only [parseUintLoop, decValFrom, List.foldl_nil]
    rw [if_pos hn]
  | cons c cs ih =>
    have hc : 48 ≤ c.toNat ∧ c.toNat ≤ 57 := by
      have := hd c (by simp)
      simpa [isDigit] using this
    have hcs : ∀ c ∈ cs, isDigit c = true := fun x hx => hd x (by simp [hx])
    have hmono := decValFrom_mono cs (10 * n + (c.toNat - 48))
    have hstep : decValFrom n (c :: cs) = decValFrom (10 * n + (c.toNat - 48)) cs := by
      simp [decValFrom]
    rw [hstep]
    unfold parseUintLoop
    simp only [hc, and_self, if_true]
    have hd10 : ¬ (c.toNat - 48 ≥ 10) := by omega
    rw [if_neg hd10]
    by_cases hcut : n ≥ cutoff
    · rw [if_pos hcut]
      have : ¬ decValFrom (10 * n + (c.toNat - 48)) cs < 2 ^ 64 := by
        simp only [cutoff, maxUint64] at hcut
        omega
      rw [if_neg this]
    · rw [if_neg hcut]
      have hlt : n * 10 < 2 ^ 64 := by
        simp only [cutoff, maxUint64] at hcut
        omega
      rw [Nat.mod_eq_of_lt hlt]
      by_cases hov : n * 10 + (c.toNat - 48) < 2 ^ 64
      · rw [Nat.mod_eq_of_lt hov]
        have : ¬ (n * 10 + (c.toNat - 48) < n * 10 ∨ n * 10 + (c.toNat - 48) > maxUint64) := by
          simp only [maxUint64]
          omega
        rw [if_neg this, ih _ hcs hov, Nat.mul_comm n 10]
      · have hwrap : (n * 10 + (c.toNat - 48)) % 2 ^ 64 = n * 10 + (c.toNat - 48) - 2 ^ 64 := by
          rw [Nat.mod_eq_sub_mod (by omega), Nat.mod_eq_of_lt (by omega)]
        rw [hwrap]
        have : (n * 10 + (c.toNat - 48) - 2 ^ 64 < n * 10 ∨
            n * 10 + (c.toNat - 48) - 2 ^ 64 > maxUint64) := by
          left; omega
        rw [if_pos this]
        have : ¬ decValFrom (10 * n + (c.toNat - 48)) cs < 2 ^ 64 := by omega
        rw [if_neg this]

theorem parseUintLoop_nondigit (s0 cs : Str) (n : Nat) (hd : ¬ ∀ c ∈ cs, isDigit c = true) :
    ∃ e, parseUintLoop s0 cs n = .error e := by
  induction cs generalizing n with
  | nil => simp at hd
  | cons c cs ih =>
    unfold parseUintLoop
    simp only
    by_cases hc : 48 ≤ c.toNat ∧ c.toNat ≤ 57
    · have hcs : ¬ ∀ c ∈ cs, isDigit c = true := by
        intro h
        apply hd
        intro x hx
        rcases List.mem_cons.mp hx with rfl | hx
        · simpa [isDigit] using hc
        · exact h x hx
      rw [if_pos hc]
      repeat' split
      all_goals first | exact ih _ hcs | exact ⟨_, rfl⟩
    · rw [if_neg hc]
      repeat' split
      all_goals first | exact ⟨_, rfl⟩ | (exfalso; omega)

/-- `strconv.ParseUint(s, 10, 64)` succeeds exactly on valid port texts, with their value. -/
theorem ParseUint_valid (s : Str) (h : validPort s = true) : ParseUint s = .ok (decVal s) := by
  simp only [validPort, Bool.and_eq_true, decide_eq_true_eq, List.all_eq_true] at h
  obtain ⟨⟨hne, hd⟩, hv⟩ := h
  unfold ParseUint
  rw [if_neg hne, parseUintLoop_digits s s 0 hd (by norm_num)]
  simp only [decVal] at hv
  rw [if_pos hv]
  rfl

/-- `strconv.ParseUint(s, 10, 64)` returns an error on every other text. -/
theorem ParseUint_invalid (s : Str) (h : validPort s = false) : ∃ e, ParseUint s = .error e := by
  unfold ParseUint
  by_cases hne : s = []
  · rw [if_pos hne]; exact ⟨_, rfl⟩
  · rw [if_neg hne]
    by_cases hd : ∀ c ∈ s, isDigit c = true
    · rw [parseUintLoop_digits s s 0 hd (by norm_num)]
      have hv : ¬ decValFrom 0 s < 2 ^ 64 := by
        intro hv
        have : validPort s = true := by
          simp only [validPort, Bool.and_eq_true, decide_eq_true_eq, List.all_eq_true]
          exact ⟨⟨hne, hd⟩, hv⟩
        rw [h] at this
        exact Bool.false_ne_true this
      rw [if_neg hv]
      exact ⟨_, rfl⟩
    · exact parseUintLoop_nondigit s s 0 hd

/-- A successful `strconv.ParseUint(s, 10, 64)` yields the value of a valid port text. -/
theorem ParseUint_ok (s : Str) (v : Nat) (h : ParseUint s = .ok v) :
    validPort s = true ∧ v = decVal s := by
  cases hv : validPort s with
  | true =>
    rw [ParseUint_valid s hv] at h
    exact ⟨rfl, (Res.ok.inj h).symm⟩
  | false =>
    obtain ⟨e, he⟩ := ParseUint_invalid s hv
    rw [he] at h
    exact Res.noConfusion h

theorem ParseUint_ne_panicked (s : Str) : ParseUint s ≠ .panicked := by
  unfold ParseUint
  split
  · simp
  · exact parseUintLoop_ne_panicked s s 0

theorem decVal_lt_of_valid (s : Str) (h : validPort s = true) : decVal s < 2 ^ 64 := by
  simp only [validPort, Bool.and_eq_true, decide_eq_true_eq] at h
  exact h.2

/-! ## Lemmas on `ResolveIPAndPort` -/

theorem loopback_noColon : ':' ∉ loopback := by decide

/-- On `host:rest` with a colon-free host, `laddr[0]` is the host and `laddr[1]` the
first piece of `rest`. -/
theorem ResolveIPAndPort_host (ip host rest : Str) (hc : ':' ∉ host) :
    ResolveIPAndPort ip (host ++ ':' :: rest) =
      if host = loopback then .ok (ip, defaultPort)
      else
        match ParseUint ((Split rest ':').headD []) with
        | .ok port => .ok (host, port)
        | .error err => .error err
        | .panicked => .panicked := by
  unfold ResolveIPAndPort
  simp only [Split_append_sep host ':' rest hc, List.get?_cons_zero, List.get?_cons_succ]
  split
  · rfl
  · cases hs : Split rest ':' with
    | nil => exact absurd hs (Split_ne_nil rest ':')
    | cons p ps => simp

theorem ResolveIPAndPort_noColon (ip addr : Str) (hc : ':' ∉ addr) (hl : addr ≠ loopback) :
    ResolveIPAndPort ip addr = .panicked := by
  unfold ResolveIPAndPort
  simp [Split_noSep addr ':' hc, hl]

theorem ResolveIPAndPort_port_lt (ip addr host : Str) (port : Nat)
    (h : ResolveIPAndPort ip addr = .ok (host, port)) : port < 2 ^ 64 := by
  unfold ResolveIPAndPort at h
  simp only at h
  split at h
  · exact Res.noConfusion h
  · split at h
    · have := Res.ok.inj h
      have hp : port = defaultPort := (Prod.mk.inj this).2.symm
      rw [hp]; decide
    · split at h
      · exact Res.noConfusion h
      · rename_i p _
        split at h
        · rename_i v hv
          have hp : port = v := (Prod.mk.inj (Res.ok.inj h)).2.symm
          obtain ⟨hvalid, hval⟩ := ParseUint_ok p v hv
          rw [hp, hval]
          exact decVal_lt_of_valid p hvalid
        · exact Res.noConfusion h
        · exact Res.noConfusion h

theorem ResolveIPAndPort_host_origin (ip addr host : Str) (port : Nat)
    (h : ResolveIPAndPort ip addr = .ok (host, port)) :
    host = ip ∨ (Split addr ':').head? = some host := by
  unfold ResolveIPAndPort at h
  simp only at h
  cases hs : Split addr ':' with
  | nil => exact absurd hs (Split_ne_nil addr ':')
  | cons a r =>
    rw [hs] at h
    simp only [List.get?_cons_zero] at h
    split at h
    · left
      exact (Prod.mk.inj (Res.ok.inj h)).1.symm
    · right
      split at h
      · exact Res.noConfusion h
      · split at h
        · rw [(Prod.mk.inj (Res.ok.inj h)).1]
          rfl
        · exact Res.noConfusion h
        · exact Res.noConfusion h

/-! ## Properties of `ResolveIPAndPort` -/

/-- C1: on `host:port` with a colon-free host, `ResolveIPAndPort` returns
`(host, value of port)` without error when the host is not `127.0.0.1` and the port
is a non-empty string of decimal digits denoting a value below `2^64`; and it returns
`(GetLocalIP(), 26659)` without error when the host is `127.0.0.1`, whatever the
port text is. -/
theorem ResolveIPAndPort_wellFormed (ip host port : Str) (hc : ':' ∉ host) :
    (host ≠ loopback → validPort port = true →
      ResolveIPAndPort ip (host ++ ':' :: port) = .ok (host, decVal port)) ∧
    (host = loopback → ResolveIPAndPort ip (host ++ ':' :: port) = .ok (ip, 26659)) := by
  constructor
  · intro hl hv
    have hd : ∀ c ∈ port, isDigit c = true := by
      simp only [validPort, Bool.and_eq_true, decide_eq_true_eq, List.all_eq_true] at hv
      exact hv.1.2
    have hpc : ':' ∉ port := by
      intro hmem
      have := hd ':' hmem
      revert this
      decide
    rw [ResolveIPAndPort_host ip host port hc, if_neg hl, Split_noSep port ':' hpc]
    simp only [List.headD_cons]
    rw [ParseUint_valid port hv]
  · intro hl
    rw [ResolveIPAndPort_host ip host port hc, if_pos hl]
    rfl

theorem ResolveIPAndPort_wellFormed_witness :
    ResolveIPAndPort [] "h:80".toList = .ok ("h".toList, 80) ∧
    ResolveIPAndPort "10.0.0.7".toList "127.0.0.1:abc".toList = .ok ("10.0.0.7".toList, 26659) :=
  ⟨(ResolveIPAndPort_wellFormed [] "h".toList "80".toList (by decide)).1 (by decide) (by decide),
   (ResolveIPAndPort_wellFormed "10.0.0.7".toList "127.0.0.1".toList "abc".toList
      (by decide)).2 (by decide)⟩

/-- C6 (evaluation at the failing inputs): on an address without a colon, such as
`"bad"` or `""`, `ResolveIPAndPort` ends in the index-out-of-range panic of
`laddr[1]` and returns no error value. -/
theorem ResolveIPAndPort_bad_panics (ip : Str) :
    ResolveIPAndPort ip "bad".toList = .panicked ∧ ResolveIPAndPort ip [] = .panicked :=
  ⟨ResolveIPAndPort_noColon ip "bad".toList (by decide) (by decide),
   ResolveIPAndPort_noColon ip [] (by decide) (by decide)⟩

/-- C7 (counterexample): `"h:1:2"` has two colons and a first piece other than
`127.0.0.1`, and `ResolveIPAndPort` returns the result `("h", 1)`, not an error. -/
theorem ResolveIPAndPort_twoColons_ok :
    "h:1:2".toList.count ':' = 2 ∧
    (Split "h:1:2".toList ':').head? ≠ some loopback ∧
    ResolveIPAndPort [] "h:1:2".toList = .ok ("h".toList, 1) := by
  decide

/-- C7 (amended): on `host:p:rest` with colon-free `host` and `p` and a host other
than `127.0.0.1`, everything from the second colon on is ignored: the result is
`(host, value of p)` when `p` is a valid unsigned decimal below `2^64`, and an error
otherwise. -/
theorem ResolveIPAndPort_twoColons (ip host p rest : Str) (hc : ':' ∉ host)
    (hpc : ':' ∉ p) (hl : host ≠ loopback) :
    (validPort p = true →
      ResolveIPAndPort ip (host ++ ':' :: (p ++ ':' :: rest)) = .ok (host, decVal p)) ∧
    (validPort p = false →
      ∃ e, ResolveIPAndPort ip (host ++ ':' :: (p ++ ':' :: rest)) = .error e) := by
  rw [ResolveIPAndPort_host ip host _ hc, if_neg hl, Split_append_sep p ':' rest hpc]
  simp only [List.headD_cons]
  constructor
  · intro hv
    rw [ParseUint_valid p hv]
  · intro hv
    obtain ⟨e, he⟩ := ParseUint_invalid p hv
    exact ⟨e, by rw [he]⟩

theorem ResolveIPAndPort_twoColons_witness :
    ResolveIPAndPort [] "h:1:2".toList = .ok ("h".toList, 1) ∧
    (∃ e, ResolveIPAndPort [] "h:x:2".toList = .error e) :=
  ⟨(ResolveIPAndPort_twoColons [] "h".toList "1".toList "2".toList
      (by decide) (by decide) (by decide)).1 (by decide),
   (ResolveIPAndPort_twoColons [] "h".toList "x".toList "2".toList
      (by decide) (by decide) (by decide)).2 (by decide)⟩

/-! ## Lemmas on the registration loop -/

theorem registerLoop_panicked (env : Env) (addr : Str) (addrs appNames : List Str)
    (firstIP : Str) (calls : List RegisterInstanceParam)
    (hr : ResolveIPAndPort env.GetLocalIP addr = .panicked) :
    registerLoop env (addr :: addrs) appNames firstIP calls =
      ⟨calls, .panicked .indexOutOfRange⟩ := by
  simp only [registerLoop, hr]

theorem registerLoop_error (env : Env) (addr : Str) (addrs appNames : List Str)
    (firstIP : Str) (calls : List RegisterInstanceParam) (err : NumError)
    (hr : ResolveIPAndPort env.GetLocalIP addr = .error err) :
    registerLoop env (addr :: addrs) appNames firstIP calls =
      ⟨calls, .returned (.resolve err)⟩ := by
  simp only [registerLoop, hr]

theorem registerLoop_mismatch (env : Env) (addr : Str) (addrs appNames : List Str)
    (firstIP : Str) (calls : List RegisterInstanceParam) (ip : Str) (port : Nat)
    (hr : ResolveIPAndPort env.GetLocalIP addr = .ok (ip, port))
    (hm : firstIP ≠ [] ∧ firstIP ≠ ip) :
    registerLoop env (addr :: addrs) appNames firstIP calls =
      ⟨calls, .panicked (.hostMismatch firstIP ip)⟩ := by
  simp only [registerLoop, hr]
  rw [if_pos hm]

theorem registerLoop_noName (env : Env) (addr : Str) (addrs : List Str)
    (firstIP : Str) (calls : List RegisterInstanceParam) (ip : Str) (port : Nat)
    (hr : ResolveIPAndPort env.GetLocalIP addr = .ok (ip, port))
    (hm : ¬ (firstIP ≠ [] ∧ firstIP ≠ ip)) :
    registerLoop env (addr :: addrs) [] firstIP calls =
      ⟨calls, .panicked .indexOutOfRange⟩ := by
  simp only [registerLoop, hr]
  rw [if_neg hm]

theorem registerLoop_accept (env : Env) (addr : Str) (addrs : List Str) (appName : Str)
    (appNames : List Str) (firstIP : Str) (calls : List RegisterInstanceParam) (ip : Str)
    (port : Nat) (hr : ResolveIPAndPort env.GetLocalIP addr = .ok (ip, port))
    (hm : ¬ (firstIP ≠ [] ∧ firstIP ≠ ip))
    (ha : env.RegisterInstance calls (instanceParam env calls.length ip port appName) = true) :
    registerLoop env (addr :: addrs) (appName :: appNames) firstIP calls =
      registerLoop env addrs appNames (if firstIP = [] then ip else firstIP)
        (calls ++ [instanceParam env calls.length ip port appName]) := by
  simp only [registerLoop, hr]
  rw [if_neg hm, if_pos ha]

theorem registerLoop_reject (env : Env) (addr : Str) (addrs : List Str) (appName : Str)
    (appNames : List Str) (firstIP : Str) (calls : List RegisterInstanceParam) (ip : Str)
    (port : Nat) (hr : ResolveIPAndPort env.GetLocalIP addr = .ok (ip, port))
    (hm : ¬ (firstIP ≠ [] ∧ firstIP ≠ ip))
    (ha : env.RegisterInstance calls (instanceParam env calls.length ip port appName) = false) :
    registerLoop env (addr :: addrs) (appName :: appNames) firstIP calls =
      ⟨calls ++ [instanceParam env calls.length ip port appName], .returned .register⟩ := by
  simp only [registerLoop, hr]
  rw [if_neg hm, if_neg (by simp [ha])]

theorem registerLoop_ports (env : Env) (addrs appNames : List Str) (firstIP : Str)
    (calls : List RegisterInstanceParam) (h : ∀ q ∈ calls, q.Port < 2 ^ 64) :
    ∀ q ∈ (registerLoop env addrs appNames firstIP calls).calls, q.Port < 2 ^ 64 := by
  induction addrs generalizing appNames firstIP calls with
  | nil => simpa [registerLoop] using h
  | cons addr addrs ih =>
    cases hr : ResolveIPAndPort env.GetLocalIP addr with
    | panicked => rw [registerLoop_panicked env addr addrs appNames firstIP calls hr]; exact h
    | error err => rw [registerLoop_error env addr addrs appNames firstIP calls err hr]; exact h
    | ok v =>
      obtain ⟨ip, port⟩ := v
      have hport : port < 2 ^ 64 := ResolveIPAndPort_port_lt _ _ _ _ hr
      have hext : ∀ name, ∀ q ∈ calls ++ [instanceParam env calls.length ip port name],
          q.Port < 2 ^ 64 := by
        intro name q hq
        rcases List.mem_append.mp hq with hq | hq
        · exact h q hq
        · rw [List.mem_singleton.mp hq]
          exact hport
      by_cases hm : firstIP ≠ [] ∧ firstIP ≠ ip
      · rw [registerLoop_mismatch env addr addrs appNames firstIP calls ip port hr hm]
        exact h
      · cases appNames with
        | nil =>
          rw [registerLoop_noName env addr addrs firstIP calls ip port hr hm]
          exact h
        | cons appName appNames =>
          cases ha : env.RegisterInstance calls (instanceParam env calls.length ip port appName) with
          | true =>
            rw [registerLoop_accept env addr addrs appName appNames firstIP calls ip port hr hm ha]
            exact ih _ _ _ (hext appName)
          | false =>
            rw [registerLoop_reject env addr addrs appName appNames firstIP calls ip port hr hm ha]
            exact hext appName

/-- When no resolved host is empty, all the instances handed over carry one `Ip`. -/
theorem registerLoop_sameIp (env : Env) (addrs appNames : List Str) (firstIP : Str)
    (calls : List RegisterInstanceParam)
    (hne : ∀ a ∈ addrs, ∀ ip port, ResolveIPAndPort env.GetLocalIP a = .ok (ip, port) → ip ≠ [])
    (hinv : (firstIP = [] ∧ calls = []) ∨ (firstIP ≠ [] ∧ ∀ q ∈ calls, q.Ip = firstIP)) :
    ∃ g, ∀ q ∈ (registerLoop env addrs appNames firstIP calls).calls, q.Ip = g := by
  induction addrs generalizing appNames firstIP calls with
  | nil =>
    refine ⟨firstIP, ?_⟩
    rcases hinv with ⟨_, hc⟩ | ⟨_, hc⟩
    · simp [registerLoop, hc]
    · simpa [registerLoop] using hc
  | cons addr addrs ih =>
    have hold : ∃ g, ∀ q ∈ calls, q.Ip = g := by
      refine ⟨firstIP, ?_⟩
      rcases hinv with ⟨_, hc⟩ | ⟨_, hc⟩
      · simp [hc]
      · exact hc
    cases hr : ResolveIPAndPort env.GetLocalIP addr with
    | panicked => rw [registerLoop_panicked env addr addrs appNames firstIP calls hr]; exact hold
    | error err => rw [registerLoop_error env addr addrs appNames firstIP calls err hr]; exact hold
    | ok v =>
      obtain ⟨ip, port⟩ := v
      have hip : ip ≠ [] := hne addr (by simp) ip port hr
      by_cases hm : firstIP ≠ [] ∧ firstIP ≠ ip
      · rw [registerLoop_mismatch env addr addrs appNames firstIP calls ip port hr hm]
        exact hold
      · cases appNames with
        | nil =>
          rw [registerLoop_noName env addr addrs firstIP calls ip port hr hm]
          exact hold
        | cons appName appNames =>
          have hnew : (if firstIP = [] then ip else firstIP) = ip := by
            by_cases hf : firstIP = []
            · rw [if_pos hf]
            · rw [if_neg hf]
              by_contra hcon
              exact hm ⟨hf, hcon⟩
          have hext : ∀ q ∈ calls ++ [instanceParam env calls.length ip port appName],
              q.Ip = ip := by
            intro q hq
            rcases List.mem_append.mp hq with hq | hq
            · rcases hinv with ⟨_, hc⟩ | ⟨hf, hc⟩
              · rw [hc] at hq
                simp at hq
              · rw [hc q hq]
                by_contra hcon
                exact hm ⟨hf, hcon⟩
            · rw [List.mem_singleton.mp hq]
              rfl
          cases ha : env.RegisterInstance calls (instanceParam env calls.length ip port appName) with
          | true =>
            rw [registerLoop_accept env addr addrs appName appNames firstIP calls ip port hr hm ha,
              hnew]
            exact ih _ _ _ (fun a hmem => hne a (List.mem_cons_of_mem _ hmem))
              (Or.inr ⟨hip, hext⟩)
          | false =>
            rw [registerLoop_reject env addr addrs appName appNames firstIP calls ip port hr hm ha]
            exact ⟨ip, hext⟩

theorem Split_Join (l : List Str) (sep : Char) (hne : l ≠ []) (h : ∀ x ∈ l, sep ∉ x) :
    Split (Join l sep) sep = l := by
  induction l with
  | nil => exact absurd rfl hne
  | cons x r ih =>
    cases r with
    | nil => exact Split_noSep x sep (h x (by simp))
    | cons y r =>
      have hx : sep ∉ x := h x (by simp)
      have hr : ∀ z ∈ y :: r, sep ∉ z := fun z hz => h z (List.mem_cons_of_mem _ hz)
      simp only [Join]
      rw [Split_append_sep x sep _ hx, ih (by simp) hr]

theorem validPort_noSep (p : Str) (sep : Char) (hs : isDigit sep = false)
    (hv : validPort p = true) : sep ∉ p := by
  simp only [validPort, Bool.and_eq_true, decide_eq_true_eq, List.all_eq_true] at hv
  intro hmem
  have := hv.1.2 sep hmem
  rw [hs] at this
  exact Bool.false_ne_true this

theorem ResolveIPAndPort_hostPort (ip h p : Str) (hc : ':' ∉ h) (hl : h ≠ loopback)
    (hv : validPort p = true) :
    ResolveIPAndPort ip (hostPort h p) = .ok (h, decVal p) := by
  have hpc : ':' ∉ p := validPort_noSep p ':' (by decide) hv
  unfold hostPort
  rw [ResolveIPAndPort_host ip h p hc, if_neg hl, Split_noSep p ':' hpc]
  simp only [List.headD_cons]
  rw [ParseUint_valid p hv]

theorem expectedFrom_cons (env : Env) (h : Str) (k : Nat) (n p : Str) (ns ps : List Str) :
    expectedFrom env h k (n :: ns) (p :: ps) =
      instanceParam env k h (decVal p) n :: expectedFrom env h (k + 1) ns ps := by
  simp only [expectedFrom, List.zip_cons_cons, List.enumFrom_cons, List.map_cons]

theorem expectedFrom_length (env : Env) (h : Str) (k : Nat) (names ports : List Str)
    (hlen : names.length = ports.length) :
    (expectedFrom env h k names ports).length = names.length := by
  simp [expectedFrom, hlen]

/-- On well-formed input the loop hands over the expected instances until one is rejected. -/
theorem registerLoop_wellFormed (env : Env) (h : Str) (hh : h ≠ []) (hc : ':' ∉ h)
    (hl : h ≠ loopback) (ports names : List Str) (firstIP : Str)
    (calls : List RegisterInstanceParam) (hlen : names.length = ports.length)
    (hv : ∀ p ∈ ports, validPort p = true) (hf : firstIP = [] ∨ firstIP = h) :
    registerLoop env (ports.map (hostPort h)) names firstIP calls =
      attempt env calls (expectedFrom env h calls.length names ports) := by
  induction ports generalizing names firstIP calls with
  | nil =>
    cases names with
    | nil => simp [registerLoop, expectedFrom, attempt]
    | cons n ns => simp at hlen
  | cons p ps ih =>
    cases names with
    | nil => simp at hlen
    | cons n ns =>
      have hr : ResolveIPAndPort env.GetLocalIP (hostPort h p) = .ok (h, decVal p) :=
        ResolveIPAndPort_hostPort _ h p hc hl (hv p (by simp))
      have hm : ¬ (firstIP ≠ [] ∧ firstIP ≠ h) := by
        rcases hf with hf | hf
        · simp [hf]
        · simp [hf]
      have hf2 : (if firstIP = [] then h else firstIP) = [] ∨
          (if firstIP = [] then h else firstIP) = h := by
        rcases hf with hf | hf
        · right; simp [hf]
        · right
          rw [hf, if_neg hh]
      have hlen2 : ns.length = ps.length := by simpa using hlen
      have hv2 : ∀ q ∈ ps, validPort q = true := fun q hq => hv q (List.mem_cons_of_mem _ hq)
      rw [expectedFrom_cons, List.map_cons]
      cases ha : env.RegisterInstance calls (instanceParam env calls.length h (decVal p) n) with
      | true =>
        rw [registerLoop_accept env _ _ n ns firstIP calls h (decVal p) hr hm ha]
        rw [ih ns _ _ hlen2 hv2 hf2]
        simp [attempt, ha]
      | false =>
        rw [registerLoop_reject env _ _ n ns firstIP calls h (decVal p) hr hm ha]
        simp [attempt, ha]

/-- The calls of `attempt` are the instances up to the first rejected one. -/
theorem attempt_spec (env : Env) (E hist : List RegisterInstanceParam) (hne : E ≠ []) :
    ∃ k, k < E.length ∧ (attempt env hist E).calls = hist ++ E.take (k + 1) ∧
      (∀ i < k, ∀ x, E.get? i = some x → env.RegisterInstance (hist ++ E.take i) x = true) ∧
      ((∃ x, E.get? k = some x ∧ env.RegisterInstance (hist ++ E.take k) x = false ∧
          (attempt env hist E).exit = .returned .register) ∨
        (k = E.length - 1 ∧
          (∀ x, E.get? k = some x → env.RegisterInstance (hist ++ E.take k) x = true) ∧
          (attempt env hist E).exit = .success)) := by
  induction E generalizing hist with
  | nil => exact absurd rfl hne
  | cons x xs ih =>
    cases ha : env.RegisterInstance hist x with
    | false =>
      refine ⟨0, by simp, by simp [attempt, ha], by simp, Or.inl ⟨x, by simp, ?_, ?_⟩⟩
      · simpa using ha
      · simp [attempt, ha]
    | true =>
      cases xs with
      | nil =>
        refine ⟨0, by simp, by simp [attempt, ha], by simp, Or.inr ⟨by simp, ?_, ?_⟩⟩
        · intro y hy
          simp at hy
          simpa [← hy] using ha
        · simp [attempt, ha]
      | cons y ys =>
        obtain ⟨k, hk, hcalls, hbefore, hlast⟩ := ih (hist ++ [x]) (by simp)
        have hrun : attempt env hist (x :: y :: ys) = attempt env (hist ++ [x]) (y :: ys) := by
          simp [attempt, ha]
        refine ⟨k + 1, by simpa using hk, ?_, ?_, ?_⟩
        · rw [hrun, hcalls]
          simp
        · intro i hi z hz
          cases i with
          | zero =>
            simp at hz
            simpa [← hz] using ha
          | succ j =>
            have := hbefore j (by omega) z (by simpa using hz)
            simpa using this
        · rcases hlast with ⟨z, hz, hrej, hexit⟩ | ⟨hk2, hacc, hexit⟩
          · refine Or.inl ⟨z, by simpa using hz, ?_, ?_⟩
            · simpa using hrej
            · rw [hrun]; exact hexit
          · refine Or.inr ⟨?_, ?_, ?_⟩
            · simp at hk2 ⊢
              omega
            · intro z hz
              have := hacc z (by simpa using hz)
              simpa using this
            · rw [hrun]; exact hexit

/-- A failing entry after entries that resolve: the loop makes at most one call per
earlier entry and ends by a return or by the host panic. -/
theorem registerLoop_failingEntry (env : Env) (pre : List Str) (bad : Str) (post : List Str)
    (err : NumError) (appNames : List Str) (firstIP : Str)
    (calls : List RegisterInstanceParam)
    (hpre : ∀ a ∈ pre, ∃ ip port, ResolveIPAndPort env.GetLocalIP a = .ok (ip, port))
    (hbad : ResolveIPAndPort env.GetLocalIP bad = .error err)
    (hlen : pre.length ≤ appNames.length) :
    ∃ more, (registerLoop env (pre ++ bad :: post) appNames firstIP calls).calls = calls ++ more ∧
      more.length ≤ pre.length ∧
      ((∃ w, (registerLoop env (pre ++ bad :: post) appNames firstIP calls).exit = .returned w) ∨
       (∃ a b, (registerLoop env (pre ++ bad :: post) appNames firstIP calls).exit =
          .panicked (.hostMismatch a b))) := by
  induction pre generalizing appNames firstIP calls with
  | nil =>
    rw [List.nil_append, registerLoop_error env bad post appNames firstIP calls err hbad]
    exact ⟨[], by simp, by simp, Or.inl ⟨_, rfl⟩⟩
  | cons a pre ih =>
    obtain ⟨ip, port, hr⟩ := hpre a (by simp)
    have hpre2 : ∀ b ∈ pre, ∃ ip port, ResolveIPAndPort env.GetLocalIP b = .ok (ip, port) :=
      fun b hb => hpre b (List.mem_cons_of_mem _ hb)
    rw [List.cons_append]
    by_cases hm : firstIP ≠ [] ∧ firstIP ≠ ip
    · rw [registerLoop_mismatch env a _ appNames firstIP calls ip port hr hm]
      exact ⟨[], by simp, by simp, Or.inr ⟨_, _, rfl⟩⟩
    · cases appNames with
      | nil => simp at hlen
      | cons n ns =>
        have hlen2 : pre.length ≤ ns.length := by simpa using hlen
        cases ha : env.RegisterInstance calls (instanceParam env calls.length ip port n) with
        | true =>
          rw [registerLoop_accept env a _ n ns firstIP calls ip port hr hm ha]
          obtain ⟨more, hcalls, hmore, hexit⟩ := ih ns (if firstIP = [] then ip else firstIP)
            (calls ++ [instanceParam env calls.length ip port n]) hpre2 hlen2
          refine ⟨instanceParam env calls.length ip port n :: more, ?_, ?_, hexit⟩
          · rw [hcalls]; simp
          · simpa using hmore
        | false =>
          rw [registerLoop_reject env a _ n ns firstIP calls ip port hr hm ha]
          exact ⟨[instanceParam env calls.length ip port n], by simp, by simp, Or.inl ⟨_, rfl⟩⟩

/-! ## Lemmas on `getServerConfigs` -/

/-- When every entry resolves, the loop appends one descriptor per entry, in order. -/
theorem getServerConfigsLoop_ok (ip : Str) (urls : List Str) (configs : List ServerConfig)
    (ds : List ServerConfig)
    (h : List.Forall₂ (fun u d => ResolveIPAndPort ip u = .ok (d.IpAddr, d.Port)) urls ds) :
    getServerConfigsLoop ip urls configs = .ok (configs ++ ds) := by
  induction h generalizing configs with
  | nil => simp [getServerConfigsLoop]
  | cons hr _ ih =>
    simp only [getServerConfigsLoop, hr]
    rw [ih]
    simp

/-- The first entry that does not resolve decides the outcome: its error, wrapped. -/
theorem getServerConfigsLoop_error (ip : Str) (pre : List Str) (bad : Str) (post : List Str)
    (err : NumError) (configs : List ServerConfig)
    (hpre : ∀ a ∈ pre, ∃ host port, ResolveIPAndPort ip a = .ok (host, port))
    (hbad : ResolveIPAndPort ip bad = .error err) :
    getServerConfigsLoop ip (pre ++ bad :: post) configs =
      .error ⟨"Err parsing host: ".toList, err⟩ := by
  induction pre generalizing configs with
  | nil => simp only [List.nil_append, getServerConfigsLoop, hbad]
  | cons a pre ih =>
    obtain ⟨host, port, hr⟩ := hpre a (by simp)
    simp only [List.cons_append, getServerConfigsLoop, hr]
    exact ih _ (fun b hb => hpre b (List.mem_cons_of_mem _ hb))

/-- The first entry that does not resolve decides the outcome: its panic. -/
theorem getServerConfigsLoop_panicked (ip : Str) (pre : List Str) (bad : Str)
    (post : List Str) (configs : List ServerConfig)
    (hpre : ∀ a ∈ pre, ∃ host port, ResolveIPAndPort ip a = .ok (host, port))
    (hbad : ResolveIPAndPort ip bad = .panicked) :
    getServerConfigsLoop ip (pre ++ bad :: post) configs = .panicked := by
  induction pre generalizing configs with
  | nil => simp only [List.nil_append, getServerConfigsLoop, hbad]
  | cons a pre ih =>
    obtain ⟨host, port, hr⟩ := hpre a (by simp)
    simp only [List.cons_append, getServerConfigsLoop, hr]
    exact ih _ (fun b hb => hpre b (List.mem_cons_of_mem _ hb))

/-! ## The copies of the routine in `cmd/proxyd` -/

theorem Main_ResolveIPAndPort_eq (ip addr : Str) :
    Main.ResolveIPAndPort ip addr = ResolveIPAndPort ip addr := rfl

theorem Xlayer_ResolveIPAndPort_eq (ip addr : Str) :
    Xlayer.ResolveIPAndPort ip addr = ResolveIPAndPort ip addr := rfl

theorem Main_getServerConfigs_eq (ip urls : Str) :
    Main.getServerConfigs ip urls = getServerConfigs ip urls := by
  unfold Main.getServerConfigs getServerConfigs
  generalize Split urls ',' = l
  generalize ([] : List ServerConfig) = configs
  induction l generalizing configs with
  | nil => rfl
  | cons u l ih =>
    simp only [Main.getServerConfigsLoop, getServerConfigsLoop, Main_ResolveIPAndPort_eq]
    cases ResolveIPAndPort ip u with
    | panicked => rfl
    | error e => rfl
    | ok v => exact ih _

theorem Xlayer_getServerConfigs_eq (ip urls : Str) :
    Xlayer.getServerConfigs ip urls = getServerConfigs ip urls := by
  unfold Xlayer.getServerConfigs getServerConfigs
  generalize Split urls ',' = l
  generalize ([] : List ServerConfig) = configs
  induction l generalizing configs with
  | nil => rfl
  | cons u l ih =>
    simp only [Xlayer.getServerConfigsLoop, getServerConfigsLoop, Xlayer_ResolveIPAndPort_eq]
    cases ResolveIPAndPort ip u with
    | panicked => rfl
    | error e => rfl
    | ok v => exact ih _

/-- On comma-free `name` and `externalAddr`, the calls `StartNacosClient` makes. -/
theorem StartNacosClient_single_calls (env : Env) (urls namespaceId name externalAddr : Str)
    (hn : ',' ∉ name) (ha : ',' ∉ externalAddr) :
    (StartNacosClient env urls namespaceId name externalAddr).calls =
      match getServerConfigs env.GetLocalIP urls with
      | .ok serverConfigs =>
        if env.CreateNamingClient serverConfigs namespaceId = false then []
        else
          match ResolveIPAndPort env.GetLocalIP externalAddr with
          | .ok (ip, port) => [instanceParam env 0 ip port name]
          | _ => []
      | _ => [] := by
  unfold StartNacosClient
  rw [Split_noSep name ',' hn, Split_noSep externalAddr ',' ha]
  cases getServerConfigs env.GetLocalIP urls with
  | panicked => rfl
  | error e => rfl
  | ok serverConfigs =>
    simp only
    cases env.CreateNamingClient serverConfigs namespaceId with
    | false => rfl
    | true =>
      simp only [Bool.true_eq_false, if_false, List.length_singleton, ne_eq, not_true_eq_false]
      cases hr : ResolveIPAndPort env.GetLocalIP externalAddr with
      | panicked => rw [registerLoop_panicked env _ _ _ _ _ hr]
      | error e => rw [registerLoop_error env _ _ _ _ _ e hr]
      | ok v =>
        obtain ⟨ip, port⟩ := v
        have hm : ¬ (([] : Str) ≠ [] ∧ ([] : Str) ≠ ip) := by simp
        cases hacc : env.RegisterInstance [] (instanceParam env 0 ip port name) with
        | true =>
          rw [registerLoop_accept env _ _ name [] [] [] ip port hr hm hacc]
          simp [registerLoop]
        | false =>
          rw [registerLoop_reject env _ _ name [] [] [] ip port hr hm hacc]
          simp

/-! ## Properties of `StartNacosClient` and `getServerConfigs` -/

/-- C2 (evaluation at the failing input): with names `"a,b"` and addresses
`":10,1.2.3.4:20"` and a registry that accepts every call, one call of
`StartNacosClient` hands two instances to `RegisterInstance` whose `Ip` differ
(`""` and `"1.2.3.4"`) and ends normally, without the panic. -/
theorem StartNacosClient_emptyHost_twoHosts :
    (StartNacosClient (acceptAll []) "n:1".toList [] "a,b".toList ":10,1.2.3.4:20".toList).calls.map
        (fun q => (q.Ip, q.Port, q.ServiceName)) =
      [([], 10, "a".toList), ("1.2.3.4".toList, 20, "b".toList)] ∧
    (StartNacosClient (acceptAll []) "n:1".toList [] "a,b".toList ":10,1.2.3.4:20".toList).exit =
      .success := by
  decide

/-- C3: when `names` and `externalAddrs` split on `","` into lists of different
lengths, `StartNacosClient` makes no `RegisterInstance` call; and when moreover the
server list was built and the client created, it ends in the cardinality panic. -/
theorem StartNacosClient_cardinality (env : Env) (urls namespaceId name externalAddr : Str)
    (hlen : (Split name ',').length ≠ (Split externalAddr ',').length) :
    (StartNacosClient env urls namespaceId name externalAddr).calls = [] ∧
    (∀ serverConfigs, getServerConfigs env.GetLocalIP urls = .ok serverConfigs →
      env.CreateNamingClient serverConfigs namespaceId = true →
      (StartNacosClient env urls namespaceId name externalAddr).exit =
        .panicked .cardinality) := by
  unfold StartNacosClient
  constructor
  · split
    · rfl
    · rfl
    · split
      · rfl
      · simp only [hlen, ne_eq, not_false_eq_true, if_true]
  · intro serverConfigs hcfg hcl
    rw [hcfg]
    simp only [hcl, Bool.true_eq_false, if_false, hlen, ne_eq, not_false_eq_true, if_true]

theorem StartNacosClient_cardinality_witness :
    (StartNacosClient (acceptAll []) "n:1".toList [] "a,b".toList "1.2.3.4:10".toList).calls = [] ∧
    (StartNacosClient (acceptAll []) "n:1".toList [] "a,b".toList "1.2.3.4:10".toList).exit =
      .panicked .cardinality :=
  have h := StartNacosClient_cardinality (acceptAll []) "n:1".toList [] "a,b".toList
    "1.2.3.4:10".toList (by decide)
  ⟨h.1, h.2 [⟨"n".toList, 1⟩] (by decide) rfl⟩

/-- C8 (counterexample): `ResolveIPAndPort` returns the port 70000, above 65535, for
`"h:70000"` and an empty host for `":10"`; and `StartNacosClient` passes an instance
with port 70000 to `RegisterInstance`. -/
theorem ResolveIPAndPort_port_outOfRange :
    ResolveIPAndPort [] "h:70000".toList = .ok ("h".toList, 70000) ∧ ¬ (70000 ≤ 65535) ∧
    ResolveIPAndPort [] ":10".toList = .ok ([], 10) ∧
    (StartNacosClient (acceptAll []) "n:1".toList [] "a".toList "h:70000".toList).calls.map
      (fun q => (q.Ip, q.Port)) = [("h".toList, 70000)] := by
  decide

/-- C8 (amended): a port returned by `ResolveIPAndPort` without error is below `2^64`
and the returned host is `GetLocalIP()` or the text before the first colon (so it is
non-empty when both of these are); and the port of every instance `StartNacosClient`
passes to `RegisterInstance` is below `2^64`. -/
theorem port_lt_two_pow_64 (env : Env) (urls namespaceId name externalAddr : Str) :
    (∀ addr host port, ResolveIPAndPort env.GetLocalIP addr = .ok (host, port) →
      port < 2 ^ 64 ∧ (host = env.GetLocalIP ∨ (Split addr ':').head? = some host) ∧
      (env.GetLocalIP ≠ [] → (Split addr ':').head? ≠ some [] → host ≠ [])) ∧
    (∀ q ∈ (StartNacosClient env urls namespaceId name externalAddr).calls,
      q.Port < 2 ^ 64) := by
  constructor
  · intro addr host port h
    have hhost : host = env.GetLocalIP ∨ (Split addr ':').head? = some host :=
      ResolveIPAndPort_host_origin _ _ _ _ h
    refine ⟨ResolveIPAndPort_port_lt _ _ _ _ h, hhost, ?_⟩
    intro hip hhead hnil
    rcases hhost with hh | hh
    · exact hip (hh ▸ hnil)
    · exact hhead (hnil ▸ hh)
  · unfold StartNacosClient
    split
    · simp
    · simp
    · split
      · simp
      · simp only
        split
        · simp
        · exact registerLoop_ports env _ _ _ _ (by simp)

theorem port_lt_two_pow_64_witness :
    ResolveIPAndPort [] "h:70000".toList = .ok ("h".toList, 70000) ∧ 70000 < 2 ^ 64 :=
  ⟨by decide,
   ((port_lt_two_pow_64 (acceptAll []) [] [] [] []).1 "h:70000".toList "h".toList 70000
     (by decide)).1⟩

/-- C9 (evaluation at the failing input): on `"h1:1,bad"` (and on `"bad"`)
`getServerConfigs` ends in the index-out-of-range panic of `ResolveIPAndPort` and
returns no error value. -/
theorem getServerConfigs_bad_panics (ip : Str) :
    getServerConfigs ip "h1:1,bad".toList = .panicked ∧
    getServerConfigs ip "bad".toList = .panicked := by
  constructor <;> rfl

/-- C4: for names `names` (non-empty list, comma-free), one non-empty host `h` other
than `127.0.0.1` (free of `:` and `,`) and valid decimal port texts `ports`, with a
server list that builds and a client that is created, the `RegisterInstance` calls of
`StartNacosClient` are exactly the expected instances (`Ip = h`, `Port` the value of
`ports[i]`, `ServiceName = names[i]`, weight 10, cluster `"DEFAULT"`, the three flags
true) of index `0..k`, in order, where `k` is the first index the registry rejects, or
the last index if it rejects none; the call ends with the success log exactly when the
instance `k` is accepted, and when no call fails all the instances are registered. -/
theorem StartNacosClient_registration_sequence (env : Env) (urls namespaceId : Str)
    (names ports : List Str) (h : Str) (serverConfigs : List ServerConfig)
    (hn : names ≠ []) (hlen : names.length = ports.length)
    (hnames : ∀ n ∈ names, ',' ∉ n)
    (hh : h ≠ []) (hl : h ≠ loopback) (hc : ':' ∉ h) (hk : ',' ∉ h)
    (hv : ∀ p ∈ ports, validPort p = true)
    (hcfg : getServerConfigs env.GetLocalIP urls = .ok serverConfigs)
    (hcl : env.CreateNamingClient serverConfigs namespaceId = true) :
    (∀ q ∈ expectedInstances env h names ports,
      q.Ip = h ∧ q.Weight = 10 ∧ q.ClusterName = "DEFAULT".toList ∧
      q.Enable = true ∧ q.Healthy = true ∧ q.Ephemeral = true) ∧
    (expectedInstances env h names ports).map (fun q => (q.ServiceName, q.Port)) =
      names.zip (ports.map decVal) ∧
    (∃ k, k < names.length ∧
      (StartNacosClient env urls namespaceId (Join names ',')
          (Join (ports.map (hostPort h)) ',')).calls =
        (expectedInstances env h names ports).take (k + 1) ∧
      (∀ i < k, accepts env (expectedInstances env h names ports) i = true) ∧
      (accepts env (expectedInstances env h names ports) k = false ∨
        k = names.length - 1) ∧
      (StartNacosClient env urls namespaceId (Join names ',')
          (Join (ports.map (hostPort h)) ',')).exit =
        (if accepts env (expectedInstances env h names ports) k then .success
         else .returned .register)) ∧
    ((∀ i < names.length, accepts env (expectedInstances env h names ports) i = true) →
      (StartNacosClient env urls namespaceId (Join names ',')
          (Join (ports.map (hostPort h)) ',')).calls = expectedInstances env h names ports ∧
      (StartNacosClient env urls namespaceId (Join names ',')
          (Join (ports.map (hostPort h)) ',')).exit = .success) := by
  have hpne : ports.map (hostPort h) ≠ [] := by
    intro hnil
    have := congrArg List.length hnil
    simp only [List.length_map, List.length_nil] at this
    rw [← hlen] at this
    exact hn (List.length_eq_zero.mp this)
  have haddrs : ∀ a ∈ ports.map (hostPort h), ',' ∉ a := by
    intro a hmem
    obtain ⟨p, hp, rfl⟩ := List.mem_map.mp hmem
    have hpk : ',' ∉ p := validPort_noSep p ',' (by decide) (hv p hp)
    simp only [hostPort, List.mem_append, List.mem_cons]
    rintro (h1 | h1 | h1)
    · exact hk h1
    · exact absurd h1 (by decide)
    · exact hpk h1
  have hE : (expectedInstances env h names ports).length = names.length :=
    expectedFrom_length env h 0 names ports hlen
  have hEne : expectedInstances env h names ports ≠ [] := by
    intro hnil
    rw [hnil] at hE
    exact hn (List.length_eq_zero.mp hE.symm)
  have hrun : StartNacosClient env urls namespaceId (Join names ',')
      (Join (ports.map (hostPort h)) ',') =
      attempt env [] (expectedInstances env h names ports) := by
    unfold StartNacosClient
    rw [hcfg]
    simp only [hcl, Bool.true_eq_false, if_false]
    rw [Split_Join names ',' hn hnames, Split_Join _ ',' hpne haddrs]
    simp only [List.length_map, hlen, ne_eq, not_true_eq_false, if_false]
    exact registerLoop_wellFormed env h hh hc hl ports names [] [] hlen hv (Or.inl rfl)
  have hacc : ∀ i, accepts env (expectedInstances env h names ports) i = true ↔
      ∀ x, (expectedInstances env h names ports).get? i = some x →
        env.RegisterInstance ([] ++ (expectedInstances env h names ports).take i) x = true := by
    intro i
    unfold accepts
    cases (expectedInstances env h names ports).get? i with
    | none => simp
    | some x => simp
  rw [hrun]
  obtain ⟨k, hklt, hcalls, hbefore, hlast⟩ :=
    attempt_spec env (expectedInstances env h names ports) [] hEne
  have hmain : k < names.length ∧
      (attempt env [] (expectedInstances env h names ports)).calls =
        (expectedInstances env h names ports).take (k + 1) ∧
      (∀ i < k, accepts env (expectedInstances env h names ports) i = true) ∧
      (accepts env (expectedInstances env h names ports) k = false ∨
        k = names.length - 1) ∧
      (attempt env [] (expectedInstances env h names ports)).exit =
        (if accepts env (expectedInstances env h names ports) k then .success
         else .returned .register) := by
    refine ⟨hE ▸ hklt, by simpa using hcalls, fun i hi => (hacc i).mpr (hbefore i hi), ?_⟩
    rcases hlast with ⟨x, hx, hrej, hexit⟩ | ⟨hk2, hall, hexit⟩
    · have hf : accepts env (expectedInstances env h names ports) k = false := by
        unfold accepts
        rw [hx]
        simpa using hrej
      exact ⟨Or.inl hf, by rw [hexit, hf]; rfl⟩
    · have ht : accepts env (expectedInstances env h names ports) k = true := (hacc k).mpr hall
      exact ⟨Or.inr (hE ▸ hk2), by rw [hexit, ht]; rfl⟩
  refine ⟨?_, ?_, ⟨k, hmain⟩, ?_⟩
  · intro q hq
    simp only [expectedInstances, expectedFrom, List.mem_map] at hq
    obtain ⟨x, _, rfl⟩ := hq
    simp [instanceParam, defaultWeight]
  · simp only [expectedInstances, expectedFrom, List.map_map]
    clear hrun hacc hmain hlast hbefore hcalls hklt hEne hE haddrs hpne hv hnames hn
    generalize 0 = j
    induction names generalizing ports j with
    | nil => simp
    | cons n ns ih =>
      cases ports with
      | nil => simp
      | cons p ps =>
        simp only [List.zip_cons_cons, List.enumFrom_cons, List.map_cons, List.cons.injEq]
        exact ⟨by simp [instanceParam], ih ps (by simpa using hlen) (j + 1)⟩
  · intro hallacc
    obtain ⟨_, hc1, _, hc3, hc4⟩ := hmain
    have hkacc : accepts env (expectedInstances env h names ports) k = true :=
      hallacc k (hE ▸ hklt)
    rcases hc3 with hc3 | hc3
    · rw [hkacc] at hc3
      exact absurd hc3 (by simp)
    · constructor
      · rw [hc1, hc3]
        apply List.take_of_length_le
        rw [hE]
        omega
      · rw [hc4, hkacc]
        rfl

theorem StartNacosClient_registration_sequence_witness :
    (StartNacosClient (acceptAll []) "n:1".toList [] "a,b".toList
        "1.2.3.4:10,1.2.3.4:20".toList).calls =
      [instanceParam (acceptAll []) 0 "1.2.3.4".toList 10 "a".toList,
       instanceParam (acceptAll []) 1 "1.2.3.4".toList 20 "b".toList] ∧
    (StartNacosClient (acceptAll []) "n:1".toList [] "a,b".toList
        "1.2.3.4:10,1.2.3.4:20".toList).exit = .success :=
  (StartNacosClient_registration_sequence (acceptAll []) "n:1".toList []
    ["a".toList, "b".toList] ["10".toList, "20".toList] "1.2.3.4".toList [⟨"n".toList, 1⟩]
    (by decide) (by decide) (by decide) (by decide) (by decide) (by decide) (by decide)
    (by decide) (by decide) rfl).2.2.2 (by decide)

/-- C5 (counterexample): with names `"a,b"` and addresses `"1.2.3.4:10,1.2.3.4:x"` the
second address fails to resolve (non-numeric port), and `StartNacosClient` has by then
registered the first instance: it makes one `RegisterInstance` call, not zero. -/
theorem StartNacosClient_partial_registration :
    ResolveIPAndPort [] "1.2.3.4:x".toList = .error ⟨"x".toList, .ErrSyntax⟩ ∧
    (StartNacosClient (acceptAll []) "n:1".toList [] "a,b".toList
        "1.2.3.4:10,1.2.3.4:x".toList).calls.map (fun q => (q.Ip, q.Port, q.ServiceName)) =
      [("1.2.3.4".toList, 10, "a".toList)] ∧
    (StartNacosClient (acceptAll []) "n:1".toList [] "a,b".toList
        "1.2.3.4:10,1.2.3.4:x".toList).exit = .returned (.resolve ⟨"x".toList, .ErrSyntax⟩) := by
  decide

/-- C5 (amended): when the first entry of `urls` that does not resolve fails with an
error, `StartNacosClient` makes no `RegisterInstance` call and returns normally.  When
the server list builds, the client is created, names and addresses split into lists of
equal length and the first entry of `externalAddrs` that does not resolve, of index
`i`, fails with an error, the call makes at most `i` `RegisterInstance` calls (the
entries before it may already be registered) and ends by a normal return or by the
host-mismatch panic; for `i = 0` it makes no call and returns normally. -/
theorem StartNacosClient_resolve_failure (env : Env) (urls namespaceId name externalAddr : Str) :
    (∀ pre bad post err, Split urls ',' = pre ++ bad :: post →
      (∀ a ∈ pre, ∃ host port, ResolveIPAndPort env.GetLocalIP a = .ok (host, port)) →
      ResolveIPAndPort env.GetLocalIP bad = .error err →
      StartNacosClient env urls namespaceId name externalAddr =
        ⟨[], .returned (.serverUrl ⟨"Err parsing host: ".toList, err⟩)⟩) ∧
    (∀ serverConfigs pre bad post err,
      getServerConfigs env.GetLocalIP urls = .ok serverConfigs →
      env.CreateNamingClient serverConfigs namespaceId = true →
      (Split name ',').length = (Split externalAddr ',').length →
      Split externalAddr ',' = pre ++ bad :: post →
      (∀ a ∈ pre, ∃ host port, ResolveIPAndPort env.GetLocalIP a = .ok (host, port)) →
      ResolveIPAndPort env.GetLocalIP bad = .error err →
      (StartNacosClient env urls namespaceId name externalAddr).calls.length ≤ pre.length ∧
      ((∃ w, (StartNacosClient env urls namespaceId name externalAddr).exit = .returned w) ∨
       (∃ a b, (StartNacosClient env urls namespaceId name externalAddr).exit =
          .panicked (.hostMismatch a b))) ∧
      (pre = [] → StartNacosClient env urls namespaceId name externalAddr =
        ⟨[], .returned (.resolve err)⟩)) := by
  constructor
  · intro pre bad post err hsplit hpre hbad
    unfold StartNacosClient getServerConfigs
    rw [hsplit, getServerConfigsLoop_error _ pre bad post err [] hpre hbad]
  · intro serverConfigs pre bad post err hcfg hcl hlen hsplit hpre hbad
    have hrun : StartNacosClient env urls namespaceId name externalAddr =
        registerLoop env (pre ++ bad :: post) (Split name ',') [] [] := by
      unfold StartNacosClient
      rw [hcfg]
      simp only [hcl, Bool.true_eq_false, if_false, hlen, ne_eq, not_true_eq_false]
      rw [hsplit]
    have hle : pre.length ≤ (Split name ',').length := by
      rw [hlen, hsplit]
      simp
    obtain ⟨more, hcalls, hmore, hexit⟩ :=
      registerLoop_failingEntry env pre bad post err (Split name ',') [] [] hpre hbad hle
    rw [hrun]
    refine ⟨?_, hexit, ?_⟩
    · rw [hcalls]
      simpa using hmore
    · intro hnil
      subst hnil
      rw [List.nil_append, registerLoop_error env bad post _ [] [] err hbad]

theorem StartNacosClient_resolve_failure_witness :
    StartNacosClient (acceptAll []) "n:x".toList [] "a".toList "h:1".toList =
      ⟨[], .returned (.serverUrl ⟨"Err parsing host: ".toList, ⟨"x".toList, .ErrSyntax⟩⟩)⟩ ∧
    (StartNacosClient (acceptAll []) "n:1".toList [] "a,b".toList
        "1.2.3.4:10,1.2.3.4:x".toList).calls.length ≤ 1 ∧
    StartNacosClient (acceptAll []) "n:1".toList [] "a,b".toList "h:x,h:2".toList =
      ⟨[], .returned (.resolve ⟨"x".toList, .ErrSyntax⟩)⟩ :=
  ⟨(StartNacosClient_resolve_failure (acceptAll []) "n:x".toList [] "a".toList
      "h:1".toList).1 [] "n:x".toList [] ⟨"x".toList, .ErrSyntax⟩ (by decide) (by simp)
      (by decide),
   ((StartNacosClient_resolve_failure (acceptAll []) "n:1".toList [] "a,b".toList
      "1.2.3.4:10,1.2.3.4:x".toList).2 [⟨"n".toList, 1⟩] ["1.2.3.4:10".toList]
      "1.2.3.4:x".toList [] ⟨"x".toList, .ErrSyntax⟩ (by decide) rfl (by decide) (by decide)
      (by intro a ha; rw [List.mem_singleton.mp ha]; exact ⟨"1.2.3.4".toList, 10, by decide⟩)
      (by decide)).1,
   ((StartNacosClient_resolve_failure (acceptAll []) "n:1".toList [] "a,b".toList
      "h:x,h:2".toList).2 [⟨"n".toList, 1⟩] [] "h:x".toList ["h:2".toList]
      ⟨"x".toList, .ErrSyntax⟩ (by decide) rfl (by decide) (by decide) (by simp)
      (by decide)).2.2 rfl⟩

/-- C10: on a `name` and an `externalAddr` without comma, the routine the entry point
calls (`startNacosClient` of `cmd/proxyd/main.go`, and its copy in
`cmd/proxyd/nacos_xlayer.go`) hands to `RegisterInstance` the same sequence of
instances (none or one) as `proxyd.StartNacosClient`. -/
theorem startNacosClient_agrees (env : Env) (urls namespaceId name externalAddr : Str)
    (hn : ',' ∉ name) (ha : ',' ∉ externalAddr) :
    (Main.startNacosClient env urls namespaceId name externalAddr).calls =
      (StartNacosClient env urls namespaceId name externalAddr).calls ∧
    (Xlayer.startNacosClient env urls namespaceId name externalAddr).calls =
      (StartNacosClient env urls namespaceId name externalAddr).calls ∧
    (StartNacosClient env urls namespaceId name externalAddr).calls.length ≤ 1 := by
  rw [StartNacosClient_single_calls env urls namespaceId name externalAddr hn ha]
  unfold Main.startNacosClient Xlayer.startNacosClient
  rw [Main_ResolveIPAndPort_eq, Main_getServerConfigs_eq, Xlayer_ResolveIPAndPort_eq,
    Xlayer_getServerConfigs_eq]
  cases ResolveIPAndPort env.GetLocalIP externalAddr with
  | panicked =>
    cases getServerConfigs env.GetLocalIP urls with
    | panicked => simp
    | error e => simp
    | ok c => cases hcl : env.CreateNamingClient c namespaceId <;> simp [hcl]
  | error e0 =>
    cases getServerConfigs env.GetLocalIP urls with
    | panicked => simp
    | error e => simp
    | ok c => cases hcl : env.CreateNamingClient c namespaceId <;> simp [hcl]
  | ok v =>
    obtain ⟨ip, port⟩ := v
    cases getServerConfigs env.GetLocalIP urls with
    | panicked => simp
    | error e => simp
    | ok c =>
      cases hcl : env.CreateNamingClient c namespaceId with
      | false => simp [hcl]
      | true =>
        cases hacc : env.RegisterInstance [] (instanceParam env 0 ip port name) <;>
          simp [hcl, hacc]

theorem startNacosClient_agrees_witness :
    (Main.startNacosClient (acceptAll []) "n:1".toList [] "a".toList "1.2.3.4:10".toList).calls =
      (StartNacosClient (acceptAll []) "n:1".toList [] "a".toList "1.2.3.4:10".toList).calls ∧
    (Xlayer.startNacosClient (acceptAll []) "n:1".toList [] "a".toList
        "1.2.3.4:10".toList).calls =
      (StartNacosClient (acceptAll []) "n:1".toList [] "a".toList "1.2.3.4:10".toList).calls ∧
    (StartNacosClient (acceptAll []) "n:1".toList [] "a".toList
        "1.2.3.4:10".toList).calls.length ≤ 1 :=
  startNacosClient_agrees (acceptAll []) "n:1".toList [] "a".toList "1.2.3.4:10".toList
    (by decide) (by decide)

end Proxyd
